import Mathlib

/-!
# Student360 — verification of the App.jsx helpers and flows

Shallow embedding of `src/src/App.jsx` (the single source file of the
repository).  Strings are modelled as `List Char`; JavaScript's falsy
coalescing `a || b` on strings is modelled by `jsOr`; `undefined`/`null`
arguments are modelled by `Option`.  Character classes of the JavaScript
regexes (`\s`, `\d`, `[a-z]`) are modelled on their ASCII meaning, which is
what every input relevant to the claims exercises.
-/

namespace Student360

/-- ASCII whitespace, modelling the JS `\s` class and `String.trim`
(the Unicode-only extras of `\s` are irrelevant to the claims). -/
def isWs (c : Char) : Bool :=
  c.toNat = 32 || c.toNat = 9 || c.toNat = 10 || c.toNat = 13 ||
    c.toNat = 11 || c.toNat = 12

/-- `String.prototype.trim`: drop leading and trailing whitespace. -/
def jsTrim (l : List Char) : List Char :=
  (((l.dropWhile isWs).reverse).dropWhile isWs).reverse

/-- `t.replace(/\s+/g, "")`: remove every whitespace character. -/
def stripWs (l : List Char) : List Char :=
  l.filter (fun c => !isWs c)

/-- ASCII case of `String.prototype.toUpperCase` (`[a-z]` mapped up). -/
def jsToUpper (c : Char) : Char :=
  if 97 ≤ c.toNat ∧ c.toNat ≤ 122 then Char.ofNat (c.toNat - 32) else c

def toUpperAll (l : List Char) : List Char := l.map jsToUpper

/-- The JS `\d` class: ASCII digits. -/
def isDigit (c : Char) : Bool := 48 ≤ c.toNat && c.toNat ≤ 57

/-- The regex `^\d+$`: non-empty, all digits. -/
def matchDigits (l : List Char) : Bool := !l.isEmpty && l.all isDigit

/-- The regex `^S-?\d+$`. -/
def matchSDigits : List Char → Bool
  | c :: d :: rest =>
      c == 'S' && (if d == '-' then matchDigits rest else matchDigits (d :: rest))
  | _ => false

/-- `cleaned.startsWith("{")`. -/
def startsWithBrace : List Char → Bool
  | c :: _ => c.toNat = 123
  | [] => false

/-- `cleaned.startsWith("http")`. -/
def startsWithHttp : List Char → Bool
  | a :: b :: c :: d :: _ => a == 'h' && b == 't' && c == 't' && d == 'p'
  | _ => false

/-- `rest` begins with `"//"`. -/
def startsWithSlashSlash : List Char → Bool
  | a :: b :: _ => a == '/' && b == '/'
  | _ => false

/-- `cleaned.includes("://")`. -/
def hasUrlSep : List Char → Bool
  | [] => false
  | a :: rest => (a.toNat = 58 && startsWithSlashSlash rest) || hasUrlSep rest

def startsWithS : List Char → Bool
  | c :: _ => c == 'S'
  | [] => false

/-- `s.replace(/^S-?/, "S-")` (the regex requires the literal `S`). -/
def replaceLeadingS : List Char → List Char
  | [] => []
  | [c] => if c == 'S' then ['S', '-'] else [c]
  | c :: d :: rest =>
      if c == 'S' then
        (if d == '-' then 'S' :: '-' :: rest else 'S' :: '-' :: d :: rest)
      else c :: d :: rest

/-- `normalizeStudentId` from App.jsx lines 1387–1401, with the source's
`t`/`cleaned`/`s` lets inlined. -/
def normalizeStudentId (raw : List Char) : List Char :=
  if (jsTrim raw).isEmpty then []
  else if startsWithBrace (stripWs (jsTrim raw)) ||
          startsWithHttp (stripWs (jsTrim raw)) ||
          hasUrlSep (stripWs (jsTrim raw)) then []
  else if matchSDigits (toUpperAll (stripWs (jsTrim raw))) ||
          matchDigits (toUpperAll (stripWs (jsTrim raw))) then
    (if startsWithS (toUpperAll (stripWs (jsTrim raw))) then
       replaceLeadingS (toUpperAll (stripWs (jsTrim raw)))
     else toUpperAll (stripWs (jsTrim raw)))
  else []

/-- String-level wrapper for concrete evaluations. -/
def normalizeStudentIdStr (s : String) : String :=
  String.mk (normalizeStudentId s.data)

example : normalizeStudentIdStr "10025" = "10025" := by decide
example : normalizeStudentIdStr "s10025" = "S-10025" := by decide
example : normalizeStudentIdStr "S-10025" = "S-10025" := by decide
example : normalizeStudentIdStr "S10025" = "S-10025" := by decide
example : normalizeStudentIdStr " s 10025 " = "S-10025" := by decide
example : normalizeStudentIdStr "http://x" = "" := by decide
example : normalizeStudentIdStr "" = "" := by decide
example : normalizeStudentIdStr "abc" = "" := by decide

/-! ## Character-level facts used by the normalizer proofs -/

lemma isDigit_toNat {c : Char} (h : isDigit c = true) :
    48 ≤ c.toNat ∧ c.toNat ≤ 57 := by
  simpa [isDigit] using h

lemma isWs_false_of_toNat {c : Char} (h : 33 ≤ c.toNat) : isWs c = false := by
  simp only [isWs, Bool.or_eq_false_iff, decide_eq_false_iff_not]
  omega

lemma jsToUpper_eq_self {c : Char} (h : c.toNat ≤ 96) : jsToUpper c = c := by
  unfold jsToUpper
  rw [if_neg (by omega)]

lemma ne_of_toNat_ne {c d : Char} (h : c.toNat ≠ d.toNat) : c ≠ d :=
  fun he => h (by rw [he])

lemma beq_false_of_toNat_ne {c d : Char} (h : c.toNat ≠ d.toNat) :
    (c == d) = false := by
  simp only [beq_eq_false_iff_ne, ne_eq]
  intro he
  exact h (by rw [he])

lemma dropWhile_isWs_eq_self {l : List Char} (h : ∀ c ∈ l, isWs c = false) :
    l.dropWhile isWs = l := by
  cases l with
  | nil => rfl
  | cons a t => simp [List.dropWhile_cons, h a (by simp)]

lemma jsTrim_eq_self {l : List Char} (h : ∀ c ∈ l, isWs c = false) :
    jsTrim l = l := by
  unfold jsTrim
  rw [dropWhile_isWs_eq_self h,
    dropWhile_isWs_eq_self (fun c hc => h c (List.mem_reverse.mp hc)),
    List.reverse_reverse]

lemma stripWs_eq_self {l : List Char} (h : ∀ c ∈ l, isWs c = false) :
    stripWs l = l := by
  unfold stripWs
  apply List.filter_eq_self.mpr
  intro a ha
  simp [h a ha]

lemma toUpperAll_eq_self {l : List Char} (h : ∀ c ∈ l, c.toNat ≤ 96) :
    toUpperAll l = l := by
  unfold toUpperAll
  induction l with
  | nil => rfl
  | cons a t ih =>
      simp only [List.map_cons, jsToUpper_eq_self (h a (by simp)), List.cons.injEq, true_and]
      exact ih (fun c hc => h c (by simp [hc]))

lemma hasUrlSep_false {l : List Char} (h : ∀ c ∈ l, c.toNat ≠ 58) :
    hasUrlSep l = false := by
  induction l with
  | nil => rfl
  | cons a t ih =>
      simp [hasUrlSep, h a (by simp), ih (fun c hc => h c (by simp [hc]))]

lemma startsWithBrace_false {c : Char} {l : List Char} (h : c.toNat ≠ 123) :
    startsWithBrace (c :: l) = false := by
  simp [startsWithBrace, h]

lemma startsWithHttp_false {c : Char} {l : List Char} (h : (c == 'h') = false) :
    startsWithHttp (c :: l) = false := by
  rcases l with _ | ⟨b, _ | ⟨d, _ | ⟨e, rest⟩⟩⟩ <;>
    first
      | rfl
      | simp [startsWithHttp, h]

lemma matchDigits_spec {l : List Char} (h : matchDigits l = true) :
    l ≠ [] ∧ ∀ c ∈ l, isDigit c = true := by
  simp only [matchDigits, Bool.and_eq_true, Bool.not_eq_true', List.isEmpty_eq_false,
    List.all_eq_true] at h
  exact h

lemma matchSDigits_false_of_head {c : Char} {l : List Char} (h : (c == 'S') = false) :
    matchSDigits (c :: l) = false := by
  cases l with
  | nil => rfl
  | cons d t => simp [matchSDigits, h]

lemma matchSDigits_shape {l : List Char} (h : matchSDigits l = true) :
    ∃ ds, matchDigits ds = true ∧ (l = 'S' :: '-' :: ds ∨ l = 'S' :: ds) := by
  rcases l with _ | ⟨c, _ | ⟨d, rest⟩⟩
  · simp [matchSDigits] at h
  · simp [matchSDigits] at h
  · simp only [matchSDigits, Bool.and_eq_true, beq_iff_eq] at h
    obtain ⟨hc, h2⟩ := h
    subst hc
    by_cases hd : d = '-'
    · rw [if_pos hd] at h2
      exact ⟨rest, h2, Or.inl (by rw [hd])⟩
    · rw [if_neg hd] at h2
      exact ⟨d :: rest, h2, Or.inr rfl⟩

/-! ## Shape of every accepted normalizer output -/

/-- If the normalizer accepts, the uppercased whitespace-free input matched
`^S-?\d+$` (and the output is `S-<digits>`) or `^\d+$` (and the output is the
digit string itself, unchanged). -/
lemma norm_shape (raw : List Char) (h : normalizeStudentId raw ≠ []) :
    ∃ ds, matchDigits ds = true ∧
      (((toUpperAll (stripWs (jsTrim raw)) = 'S' :: '-' :: ds ∨
         toUpperAll (stripWs (jsTrim raw)) = 'S' :: ds) ∧
        normalizeStudentId raw = 'S' :: '-' :: ds) ∨
       (toUpperAll (stripWs (jsTrim raw)) = ds ∧ normalizeStudentId raw = ds)) := by
  by_cases h1 : (jsTrim raw).isEmpty = true
  · exact absurd (by simp [normalizeStudentId, h1]) h
  rw [Bool.not_eq_true] at h1
  by_cases h2 : (startsWithBrace (stripWs (jsTrim raw)) ||
      startsWithHttp (stripWs (jsTrim raw)) || hasUrlSep (stripWs (jsTrim raw))) = true
  · exact absurd (by simp [normalizeStudentId, h1, h2]) h
  rw [Bool.not_eq_true] at h2
  by_cases h3 : (matchSDigits (toUpperAll (stripWs (jsTrim raw))) ||
      matchDigits (toUpperAll (stripWs (jsTrim raw)))) = true
  swap
  · rw [Bool.not_eq_true] at h3
    exact absurd (by simp [normalizeStudentId, h1, h2, h3]) h
  have hcompute : normalizeStudentId raw =
      (if startsWithS (toUpperAll (stripWs (jsTrim raw))) then
         replaceLeadingS (toUpperAll (stripWs (jsTrim raw)))
       else toUpperAll (stripWs (jsTrim raw))) := by
    simp [normalizeStudentId, h1, h2, h3]
  rw [Bool.or_eq_true] at h3
  rcases h3 with hS | hD
  · obtain ⟨ds, hds, hu⟩ := matchSDigits_shape hS
    have hSs : startsWithS (toUpperAll (stripWs (jsTrim raw))) = true := by
      rcases hu with hu | hu <;> rw [hu] <;> simp [startsWithS]
    have hrep : replaceLeadingS (toUpperAll (stripWs (jsTrim raw))) = 'S' :: '-' :: ds := by
      rcases hu with hu | hu
      · rw [hu]
        simp [replaceLeadingS]
      · rw [hu]
        obtain ⟨hne, hdig⟩ := matchDigits_spec hds
        cases ds with
        | nil => exact absurd rfl hne
        | cons d0 ds' =>
            have hd0 : (d0 == '-') = false :=
              beq_false_of_toNat_ne (by
                rw [show ('-').toNat = 45 from rfl]
                have := isDigit_toNat (hdig d0 (by simp))
                omega)
            simp [replaceLeadingS, hd0]
    exact ⟨ds, hds, Or.inl ⟨hu, by rw [hcompute, if_pos hSs, hrep]⟩⟩
  · obtain ⟨hne, hdig⟩ := matchDigits_spec hD
    have hSs : startsWithS (toUpperAll (stripWs (jsTrim raw))) = false := by
      cases hu : toUpperAll (stripWs (jsTrim raw)) with
      | nil => rfl
      | cons d0 t =>
          have hd0 : (d0 == 'S') = false :=
            beq_false_of_toNat_ne (by
              rw [show ('S').toNat = 83 from rfl]
              have := isDigit_toNat (hdig d0 (by rw [hu]; simp))
              omega)
          simp [startsWithS, hd0]
    exact ⟨toUpperAll (stripWs (jsTrim raw)), hD,
      Or.inr ⟨rfl, by rw [hcompute, if_neg (by simp [hSs])]⟩⟩

/-! ## The two accepted output shapes are fixed points of the normalizer -/

lemma norm_fix_sform {ds : List Char} (h : matchDigits ds = true) :
    normalizeStudentId ('S' :: '-' :: ds) = 'S' :: '-' :: ds := by
  obtain ⟨hne, hdig⟩ := matchDigits_spec h
  have hchar : ∀ c ∈ ('S' :: '-' :: ds), 45 ≤ c.toNat ∧ c.toNat ≤ 96 ∧ c.toNat ≠ 58 := by
    intro c hc
    simp only [List.mem_cons] at hc
    rcases hc with rfl | rfl | hc
    · exact ⟨by decide, by decide, by decide⟩
    · exact ⟨by decide, by decide, by decide⟩
    · have := isDigit_toNat (hdig c (by simp [hc]))
      omega
  have hws : ∀ c ∈ ('S' :: '-' :: ds), isWs c = false := fun c hc =>
    isWs_false_of_toNat (by have := (hchar c hc).1; omega)
  have htrim := jsTrim_eq_self hws
  have hstrip := stripWs_eq_self hws
  have hupper := toUpperAll_eq_self (fun c hc => (hchar c hc).2.1)
  have hbrace : startsWithBrace ('S' :: '-' :: ds) = false :=
    startsWithBrace_false (by decide)
  have hhttp : startsWithHttp ('S' :: '-' :: ds) = false :=
    startsWithHttp_false (by decide)
  have hsep : hasUrlSep ('S' :: '-' :: ds) = false :=
    hasUrlSep_false (fun c hc => (hchar c hc).2.2)
  simp [normalizeStudentId, htrim, hstrip, hupper, hbrace, hhttp, hsep,
    matchSDigits, h, startsWithS, replaceLeadingS]

lemma norm_fix_dform {ds : List Char} (h : matchDigits ds = true) :
    normalizeStudentId ds = ds := by
  obtain ⟨hne, hdig⟩ := matchDigits_spec h
  cases ds with
  | nil => exact absurd rfl hne
  | cons d0 ds' =>
      have hchar : ∀ c ∈ (d0 :: ds'), 48 ≤ c.toNat ∧ c.toNat ≤ 57 := fun c hc =>
        isDigit_toNat (hdig c hc)
      have hws : ∀ c ∈ (d0 :: ds'), isWs c = false := fun c hc =>
        isWs_false_of_toNat (by have := (hchar c hc).1; omega)
      have htrim := jsTrim_eq_self hws
      have hstrip := stripWs_eq_self hws
      have hupper := toUpperAll_eq_self (fun c hc => by have := (hchar c hc).2; omega)
      have hbrace : startsWithBrace (d0 :: ds') = false :=
        startsWithBrace_false (by have := (hchar d0 (by simp)).2; omega)
      have hhttp : startsWithHttp (d0 :: ds') = false :=
        startsWithHttp_false (beq_false_of_toNat_ne (by
          rw [show ('h').toNat = 104 from rfl]
          have := (hchar d0 (by simp)).2
          omega))
      have hsep : hasUrlSep (d0 :: ds') = false :=
        hasUrlSep_false (fun c hc => by have := (hchar c hc).2; omega)
      have hd0S : d0 ≠ 'S' := ne_of_toNat_ne (by
        rw [show ('S').toNat = 83 from rfl]
        have := (hchar d0 (by simp)).2
        omega)
      have hmS : matchSDigits (d0 :: ds') = false :=
        matchSDigits_false_of_head (by simp [hd0S])
      have hSs : startsWithS (d0 :: ds') = false := by
        simp [startsWithS, hd0S]
      simp [normalizeStudentId, htrim, hstrip, hupper, hbrace, hhttp, hsep, hmS, h, hSs]

/-! ## Claim theorems about the normalizer -/

/-- C1 (amended): on every accepted input, if the trimmed, whitespace-stripped,
uppercased form matches `^S-?\d+$` the result is the canonical `S-<digits>`
(the hyphen inserted if absent), while a pure-digit input matching `^\d+$` is
returned unchanged, without the `S-` prefix; concretely
`normalizeStudentId("s10025") = "S-10025"`,
`normalizeStudentId("S-10025") = "S-10025"` and
`normalizeStudentId("10025") = "10025"`. -/
theorem C1_normalizer_canonical_forms (raw : List Char)
    (h : normalizeStudentId raw ≠ []) :
    (∃ ds, matchDigits ds = true ∧
      (((toUpperAll (stripWs (jsTrim raw)) = 'S' :: '-' :: ds ∨
         toUpperAll (stripWs (jsTrim raw)) = 'S' :: ds) ∧
        normalizeStudentId raw = 'S' :: '-' :: ds) ∨
       (toUpperAll (stripWs (jsTrim raw)) = ds ∧ normalizeStudentId raw = ds))) ∧
    normalizeStudentIdStr "s10025" = "S-10025" ∧
    normalizeStudentIdStr "S-10025" = "S-10025" ∧
    normalizeStudentIdStr "10025" = "10025" :=
  ⟨norm_shape raw h, by decide, by decide, by decide⟩

/-- Witness for C1 at the concrete accepted input "s10025". -/
theorem C1_witness :
    (∃ ds, matchDigits ds = true ∧
      (((toUpperAll (stripWs (jsTrim ("s10025".data))) = 'S' :: '-' :: ds ∨
         toUpperAll (stripWs (jsTrim ("s10025".data))) = 'S' :: ds) ∧
        normalizeStudentId ("s10025".data) = 'S' :: '-' :: ds) ∨
       (toUpperAll (stripWs (jsTrim ("s10025".data))) = ds ∧
        normalizeStudentId ("s10025".data) = ds))) ∧
    normalizeStudentIdStr "s10025" = "S-10025" ∧
    normalizeStudentIdStr "S-10025" = "S-10025" ∧
    normalizeStudentIdStr "10025" = "10025" :=
  C1_normalizer_canonical_forms ("s10025".data) (by decide)

/-- Counterexample for C1 as stated: the code leaves a bare digit string
without the `S-` prefix. -/
theorem C1_counterexample : ¬ (normalizeStudentIdStr "10025" = "S-10025") := by
  decide

/-- C7: the normalizer returns the empty/invalid signal whenever the trimmed,
whitespace-stripped form begins with a brace or with `http` or contains `://`,
when the input is empty, and whenever the uppercased form matches neither
`^S-?\d+$` nor `^\d+$`; concretely on `"http://x"`, `"{"a":1}"`, `""` and
`"abc"`. -/
theorem C7_normalizer_rejections (raw : List Char)
    (h : startsWithBrace (stripWs (jsTrim raw)) = true ∨
         startsWithHttp (stripWs (jsTrim raw)) = true ∨
         hasUrlSep (stripWs (jsTrim raw)) = true ∨
         raw = [] ∨
         (matchSDigits (toUpperAll (stripWs (jsTrim raw))) = false ∧
          matchDigits (toUpperAll (stripWs (jsTrim raw))) = false)) :
    normalizeStudentId raw = [] ∧
    normalizeStudentIdStr "http://x" = "" ∧
    normalizeStudentIdStr "\x7b\"a\":1\x7d" = "" ∧
    normalizeStudentIdStr "" = "" ∧
    normalizeStudentIdStr "abc" = "" := by
  refine ⟨?_, by decide, by decide, by decide, by decide⟩
  by_cases h1 : (jsTrim raw).isEmpty = true
  · simp [normalizeStudentId, h1]
  rw [Bool.not_eq_true] at h1
  rcases h with hb | hh | hs | hraw | ⟨hm1, hm2⟩
  · simp [normalizeStudentId, h1, hb]
  · simp [normalizeStudentId, h1, hh]
  · simp [normalizeStudentId, h1, hs]
  · subst hraw
    exact absurd h1 (by decide)
  · simp [normalizeStudentId, h1, hm1, hm2]

/-- Witness for C7 at the concrete rejected input "abc". -/
theorem C7_witness :
    normalizeStudentId ("abc".data) = [] ∧
    normalizeStudentIdStr "http://x" = "" ∧
    normalizeStudentIdStr "\x7b\"a\":1\x7d" = "" ∧
    normalizeStudentIdStr "" = "" ∧
    normalizeStudentIdStr "abc" = "" :=
  C7_normalizer_rejections ("abc".data)
    (Or.inr (Or.inr (Or.inr (Or.inr (by decide)))))

/-- C8: the normalizer is idempotent on every input it accepts (non-empty
result): normalizing a second time changes nothing. -/
theorem C8_normalizer_idempotent (x : List Char) (h : normalizeStudentId x ≠ []) :
    normalizeStudentId (normalizeStudentId x) = normalizeStudentId x := by
  obtain ⟨ds, hds, hcase⟩ := norm_shape x h
  rcases hcase with ⟨_, heq⟩ | ⟨_, heq⟩
  · rw [heq]
    exact norm_fix_sform hds
  · rw [heq]
    exact norm_fix_dform hds

/-- Witness for C8 at the concrete accepted input "S-77". -/
theorem C8_witness :
    normalizeStudentId ("S-77".data) ≠ [] ∧
    normalizeStudentId (normalizeStudentId ("S-77".data)) =
      normalizeStudentId ("S-77".data) :=
  ⟨by decide, C8_normalizer_idempotent ("S-77".data) (by decide)⟩

/-! ## CSV parsing — `parseCSV` / `splitCSVLine` (App.jsx lines 1447–1484) -/

/-- `text.replace(/\r\n/g, "\n")`: left-to-right, non-overlapping. -/
def replCRLF : List Char → List Char
  | [] => []
  | [c] => [c]
  | c :: d :: rest =>
      if c == '\r' && d == '\n' then '\n' :: replCRLF rest
      else c :: replCRLF (d :: rest)

/-- `.replace(/\r/g, "\n")`. -/
def replCR (l : List Char) : List Char :=
  l.map (fun c => if c == '\r' then '\n' else c)

/-- The newline normalization prefix of `parseCSV`. -/
def normalizeNewlines (l : List Char) : List Char := replCR (replCRLF l)

/-- The character loop of `splitCSVLine`; `prev` is `line[i-1]` (`none` at
`i = 0`), `inQuotes` the quote flag, `cur` the field being accumulated. -/
def splitCSVLineGo : List Char → Option Char → Bool → List Char → List (List Char)
  | [], _, _, cur => [cur]
  | ch :: rest, prev, inQuotes, cur =>
      if ch == '"' && !(prev == some '\\') then
        splitCSVLineGo rest (some ch) (!inQuotes) cur
      else if ch == ',' && !inQuotes then
        cur :: splitCSVLineGo rest (some ch) inQuotes []
      else
        splitCSVLineGo rest (some ch) inQuotes (cur ++ [ch])

def splitCSVLine (line : List Char) : List (List Char) :=
  splitCSVLineGo line none false []

/-- A parsed data row: the JS object built by `headers.forEach`, kept as the
assoc list of (header, trimmed cell) in iteration order. -/
def Row := List (List Char × List Char)

/-- `parseCSV`: normalize newlines, split into non-empty lines, take the
first line as (trimmed) headers, and turn every further line into a row
object `obj[h] = (cols[idx] ?? "").trim()`. -/
def parseCSV (text : List Char) : List Row :=
  let lines := ((normalizeNewlines text).splitOn '\n').filter (fun l => !l.isEmpty)
  match lines with
  | [] => []
  | l0 :: rest =>
      let headers := (splitCSVLine l0).map jsTrim
      rest.map (fun line =>
        let cols := splitCSVLine line
        headers.enum.map (fun p => (p.2, jsTrim (cols.getD p.1 []))))

/-- JS property read `r[h]`: later duplicate headers overwrite earlier ones,
hence the lookup takes the last binding; an absent key is `undefined`, which
the `||` chains below treat exactly like the empty string. -/
def jsGet (r : Row) (k : List Char) : List Char :=
  match r.reverse.find? (fun p => p.1 == k) with
  | some p => p.2
  | none => []

/-- JS `a || b` on strings (only the empty string is falsy). -/
def jsOr (a b : List Char) : List Char := if a.isEmpty then b else a

structure CleanRow where
  studentId : List Char
  name : List Char
  grade : List Char
  «section» : List Char
deriving DecidableEq

def defaultGrade : List Char := "الصف الأول ابتدائي".data

def defaultSection : List Char := "أ".data

/-- The `.map`/`.filter` cleaning pipeline of `importCSV`
(App.jsx lines 677–686): column synonyms, defaults, and the drop of rows
without both a valid normalized ID and a non-empty name. -/
def cleanRows (rows : List Row) : List CleanRow :=
  (rows.map (fun r =>
    { studentId := normalizeStudentId
        (jsOr (jsGet r ("studentId".data))
          (jsOr (jsGet r ("StudentID".data))
            (jsOr (jsGet r ("id".data)) (jsGet r ("ID".data))))),
      name := jsTrim (jsOr (jsGet r ("name".data))
        (jsOr (jsGet r ("Name".data)) [])),
      grade := jsTrim (jsOr (jsGet r ("grade".data))
        (jsOr (jsGet r ("Grade".data)) defaultGrade)),
      «section» := jsTrim (jsOr (jsGet r ("section".data))
        (jsOr (jsGet r ("Section".data)) defaultSection)) })).filter
    (fun x => !x.studentId.isEmpty && !x.name.isEmpty)

def importCSVClean (text : List Char) : List CleanRow := cleanRows (parseCSV text)

/-- The rows actually written by the batch: `cleaned.slice(0, 200)`. -/
def importCSVWrites (text : List Char) : List CleanRow :=
  (importCSVClean text).take 200

example :
    importCSVClean ("studentId,name,grade,section\n10025,Ahmed,Grade1,A".data) =
      [⟨"10025".data, "Ahmed".data, "Grade1".data, "A".data⟩] := by decide

example :
    importCSVClean ("studentId,name\n1,A\n2,".data) =
      [⟨"1".data, "A".data, defaultGrade, defaultSection⟩] := by decide

example : splitCSVLine ("a,\"b,c\",d".data) = ["a".data, "b,c".data, "d".data] := by
  decide

/-! ## C9 machinery: newline normalization facts and a split round-trip -/

lemma replCR_no_cr (l : List Char) : '\r' ∉ replCR l := by
  unfold replCR
  intro hmem
  obtain ⟨a, _, hfa⟩ := List.mem_map.mp hmem
  by_cases h : a = '\r'
  · subst h
    simp at hfa
  · rw [if_neg (by simp [h])] at hfa
    exact h hfa

lemma replCRLF_eq_self {l : List Char} (h : '\r' ∉ l) : replCRLF l = l := by
  induction l with
  | nil => rfl
  | cons c t ih =>
      have hc : (c == '\r') = false := by
        simp only [beq_eq_false_iff_ne, ne_eq]
        intro he
        exact h (by simp [he])
      cases t with
      | nil => rfl
      | cons d rest =>
          simp only [replCRLF, hc, Bool.false_and, Bool.false_eq_true, if_false,
            List.cons.injEq, true_and]
          exact ih (fun hm => h (List.mem_cons_of_mem _ hm))

lemma replCR_eq_self {l : List Char} (h : '\r' ∉ l) : replCR l = l := by
  unfold replCR
  induction l with
  | nil => rfl
  | cons c t ih =>
      have hc : c ≠ '\r' := fun he => h (by simp [he])
      simp only [List.map_cons]
      rw [if_neg (by simp [hc]), ih (fun hm => h (by simp [hm]))]

lemma normalizeNewlines_idem (l : List Char) :
    normalizeNewlines (normalizeNewlines l) = normalizeNewlines l := by
  unfold normalizeNewlines
  rw [replCRLF_eq_self (replCR_no_cr _), replCR_eq_self (replCR_no_cr _)]

lemma parseCSV_norm_invariant (text : List Char) :
    parseCSV text = parseCSV (normalizeNewlines text) := by
  simp only [parseCSV, normalizeNewlines_idem]

/-- Comma-join of already encoded fields (specification-side, for C9). -/
def joinComma : List (List Char) → List Char
  | [] => []
  | [f] => f
  | f :: g :: rest => f ++ ',' :: joinComma (g :: rest)

/-- CSV-encode one field, optionally wrapping it in double quotes. -/
def encodeField : Bool × List Char → List Char
  | (true, f) => '"' :: (f ++ ['"'])
  | (false, f) => f

def encodeCSVLine (fs : List (Bool × List Char)) : List Char :=
  joinComma (fs.map encodeField)

/-- Well-formed field for the round-trip: no double quote inside a field, no
comma in an unquoted field, and no backslash in a quoted field (a trailing
backslash would defeat the scanner's lookbehind on the closing quote). -/
@[reducible] def wfField (p : Bool × List Char) : Prop :=
  ('"' ∉ p.2) ∧ (p.1 = false → ',' ∉ p.2) ∧ (p.1 = true → '\\' ∉ p.2)

/-- The `line[i-1]` value after scanning `f` starting from `prev`. -/
def endPrev : List Char → Option Char → Option Char
  | [], prev => prev
  | c :: f, _ => endPrev f (some c)

lemma endPrev_cons (c : Char) (f : List Char) (prev : Option Char) :
    endPrev (c :: f) prev = endPrev f (some c) := rfl

lemma endPrev_ne_backslash (f : List Char) (hf : '\\' ∉ f) :
    ∀ prev, prev ≠ some '\\' → endPrev f prev ≠ some '\\' := by
  induction f with
  | nil => exact fun prev hp => hp
  | cons c f' ih =>
      intro prev _
      exact ih (fun hm => hf (List.mem_cons_of_mem _ hm)) (some c)
        (fun he => hf (by rw [Option.some_inj] at he; simp [he]))

lemma go_quoted (f : List Char) :
    (∀ c ∈ f, c ≠ '"') → ∀ rest prev cur,
      splitCSVLineGo (f ++ rest) prev true cur =
        splitCSVLineGo rest (endPrev f prev) true (cur ++ f) := by
  induction f with
  | nil =>
      intro _ rest prev cur
      simp [endPrev]
  | cons c f' ih =>
      intro hf rest prev cur
      have hc : (c == '"') = false := by simp [hf c (by simp)]
      rw [List.cons_append]
      simp only [splitCSVLineGo, hc, Bool.false_and, Bool.not_true, Bool.and_false,
        Bool.false_eq_true, if_false]
      rw [ih (fun a ha => hf a (List.mem_cons_of_mem _ ha)) rest (some c) (cur ++ [c]),
        endPrev_cons]
      simp [List.append_assoc]

lemma go_unquoted (f : List Char) :
    (∀ c ∈ f, c ≠ '"' ∧ c ≠ ',') → ∀ rest prev cur,
      splitCSVLineGo (f ++ rest) prev false cur =
        splitCSVLineGo rest (endPrev f prev) false (cur ++ f) := by
  induction f with
  | nil =>
      intro _ rest prev cur
      simp [endPrev]
  | cons c f' ih =>
      intro hf rest prev cur
      have hc : (c == '"') = false := by simp [(hf c (by simp)).1]
      have hcm : (c == ',') = false := by simp [(hf c (by simp)).2]
      rw [List.cons_append]
      simp only [splitCSVLineGo, hc, hcm, Bool.false_and, Bool.false_eq_true, if_false]
      rw [ih (fun a ha => hf a (List.mem_cons_of_mem _ ha)) rest (some c) (cur ++ [c]),
        endPrev_cons]
      simp [List.append_assoc]

/-- Processing one encoded field from an un-quoted scanner state reaches the
continuation with the bare field value appended to the accumulator. -/
lemma go_field (q : Bool) (f : List Char) (hf : wfField (q, f))
    (rest : List Char) (prev : Option Char) (hprev : prev ≠ some '\\')
    (cur : List Char) :
    ∃ p', splitCSVLineGo (encodeField (q, f) ++ rest) prev false cur =
      splitCSVLineGo rest p' false (cur ++ f) := by
  obtain ⟨hq, hcomma, hbs⟩ := hf
  cases q with
  | false =>
      refine ⟨endPrev f prev, ?_⟩
      exact go_unquoted f
        (fun c hc => ⟨fun he => hq (he ▸ hc), fun he => hcomma rfl (he ▸ hc)⟩)
        rest prev cur
  | true =>
      refine ⟨some '"', ?_⟩
      have hprevb : (prev == some '\\') = false := by
        simp only [beq_eq_false_iff_ne, ne_eq]
        exact hprev
      have step1 : ('"' :: (f ++ ['"'])) ++ rest = '"' :: (f ++ ('"' :: rest)) := by
        simp [List.append_assoc]
      rw [encodeField, step1]
      simp only [splitCSVLineGo, hprevb, Bool.not_false, beq_self_eq_true,
        Bool.true_and, if_true]
      rw [go_quoted f (fun c hc he => hq (he ▸ hc)) ('"' :: rest) (some '"') cur]
      have hend : (endPrev f (some '"') == some '\\') = false := by
        simp only [beq_eq_false_iff_ne, ne_eq]
        exact endPrev_ne_backslash f (hbs rfl) (some '"') (by decide)
      simp [splitCSVLineGo, hend]

/-- Scanning a comma-joined list of encoded fields splits exactly at the
unquoted commas and strips the wrapping quotes. -/
lemma go_fields (fs : List (Bool × List Char)) :
    ∀ (f : Bool × List Char), wfField f → (∀ g ∈ fs, wfField g) →
      ∀ prev cur, prev ≠ some '\\' →
        splitCSVLineGo (joinComma ((f :: fs).map encodeField)) prev false cur =
          (cur ++ f.2) :: fs.map (fun g => g.2) := by
  induction fs with
  | nil =>
      intro f hf _ prev cur hprev
      obtain ⟨q, fv⟩ := f
      have : joinComma ([(q, fv)].map encodeField) = encodeField (q, fv) ++ [] := by
        simp [joinComma]
      rw [this]
      obtain ⟨p', hp'⟩ := go_field q fv hf [] prev hprev cur
      rw [hp']
      rfl
  | cons g gs ih =>
      intro f hf hfs prev cur hprev
      obtain ⟨q, fv⟩ := f
      have hjoin : joinComma (((q, fv) :: g :: gs).map encodeField) =
          encodeField (q, fv) ++ (',' :: joinComma ((g :: gs).map encodeField)) := by
        simp [joinComma]
      rw [hjoin]
      obtain ⟨p', hp'⟩ := go_field q fv hf
        (',' :: joinComma ((g :: gs).map encodeField)) prev hprev cur
      rw [hp']
      have hcq : ((',' : Char) == '"') = false := by decide
      simp only [splitCSVLineGo, hcq, Bool.false_and, Bool.false_eq_true, if_false,
        beq_self_eq_true, Bool.not_false, Bool.and_self, Bool.and_true, if_true]
      rw [ih g (hfs g (by simp)) (fun a ha => hfs a (List.mem_cons_of_mem _ ha))
        (some ',') [] (by decide)]
      simp

/-- C9: `splitCSVLine` splits each line on the commas outside double-quoted
regions — a quoted field may contain commas and loses its wrapping quotes —
and `parseCSV` normalizes CRLF and bare CR to line-feed before splitting into
lines (the normalized text contains no CR, and parsing is invariant under the
normalization). -/
theorem C9_csv_split_and_newlines (f : Bool × List Char)
    (fs : List (Bool × List Char))
    (hf : wfField f) (hfs : ∀ g ∈ fs, wfField g) :
    splitCSVLine (encodeCSVLine (f :: fs)) = f.2 :: fs.map (fun g => g.2) ∧
    (∀ text : List Char, '\r' ∉ normalizeNewlines text) ∧
    (∀ text : List Char, parseCSV text = parseCSV (normalizeNewlines text)) ∧
    splitCSVLine ("a,\"b,c\",d".data) = ["a".data, "b,c".data, "d".data] ∧
    normalizeNewlines ("a\r\nb\rc".data) = "a\nb\nc".data := by
  refine ⟨?_, ?_, ?_, by decide, by decide⟩
  · have h := go_fields fs f hf hfs none [] (by simp)
    simpa [splitCSVLine, encodeCSVLine] using h
  · intro text
    exact replCR_no_cr _
  · intro text
    exact parseCSV_norm_invariant text

/-- Witness for C9 on the concrete line `a,"b,c",d`. -/
theorem C9_witness :
    splitCSVLine (encodeCSVLine
        ((false, "a".data) :: [(true, "b,c".data), (false, "d".data)])) =
      ((false, "a".data)).2 ::
        [(true, "b,c".data), (false, "d".data)].map (fun g => g.2) ∧
    (∀ text : List Char, '\r' ∉ normalizeNewlines text) ∧
    (∀ text : List Char, parseCSV text = parseCSV (normalizeNewlines text)) ∧
    splitCSVLine ("a,\"b,c\",d".data) = ["a".data, "b,c".data, "d".data] ∧
    normalizeNewlines ("a\r\nb\rc".data) = "a\nb\nc".data :=
  C9_csv_split_and_newlines (false, "a".data)
    [(true, "b,c".data), (false, "d".data)] (by decide) (by decide)

/-- C2 (amended): the pipeline on header `studentId,name,grade,section` and
data row `10025,Ahmed,Grade1,A` produces exactly one cleaned record
`{studentId:"10025", name:"Ahmed", grade:"Grade1", section:"A"}` (the bare
digit ID is kept unchanged, not prefixed with `S-`); every surviving record
has a non-empty name and a non-empty normalized ID, so a data row whose name
column is empty is dropped; and at most 200 records are ever imported. -/
theorem C2_import_pipeline (text : List Char) :
    importCSVClean ("studentId,name,grade,section\n10025,Ahmed,Grade1,A".data) =
      [⟨"10025".data, "Ahmed".data, "Grade1".data, "A".data⟩] ∧
    (∀ r ∈ importCSVClean text, r.studentId ≠ [] ∧ r.name ≠ []) ∧
    (importCSVWrites text).length ≤ 200 ∧
    importCSVClean ("studentId,name\n1,A\n2,".data) =
      [⟨"1".data, "A".data, defaultGrade, defaultSection⟩] := by
  refine ⟨by decide, ?_, ?_, by decide⟩
  · intro r hr
    unfold importCSVClean cleanRows at hr
    have h := List.of_mem_filter hr
    simp only [Bool.and_eq_true, Bool.not_eq_true', List.isEmpty_eq_false] at h
    exact h
  · unfold importCSVWrites
    exact List.length_take_le 200 (importCSVClean text)

/-- Witness for C2: the drop-filter guarantee evaluated on the concrete
single-row import. -/
theorem C2_witness :
    (⟨"10025".data, "Ahmed".data, "Grade1".data, "A".data⟩ : CleanRow).studentId
        ≠ [] ∧
    (⟨"10025".data, "Ahmed".data, "Grade1".data, "A".data⟩ : CleanRow).name ≠ [] :=
  (C2_import_pipeline
      ("studentId,name,grade,section\n10025,Ahmed,Grade1,A".data)).2.1
    ⟨"10025".data, "Ahmed".data, "Grade1".data, "A".data⟩ (by decide)

/-- Counterexample for C2 as stated: the produced record carries studentId
"10025", not "S-10025". -/
theorem C2_counterexample :
    ¬ (importCSVClean ("studentId,name,grade,section\n10025,Ahmed,Grade1,A".data) =
        [⟨"S-10025".data, "Ahmed".data, "Grade1".data, "A".data⟩]) := by
  decide

/-! ## HTML escaping and the print view (C10) — App.jsx 1433–1445 / 644–663 -/

def apostrophe : Char := Char.ofNat 39

/-- The replacement of one character under the `/[&<>"']/g` class-replace. -/
def escChar (c : Char) : List Char :=
  if c == '&' then "&amp;".data
  else if c == '<' then "&lt;".data
  else if c == '>' then "&gt;".data
  else if c == '"' then "&quot;".data
  else if c == apostrophe then "&#39;".data
  else [c]

/-- `escapeHtml`: the regex is a single-character class replaced globally,
i.e. a character-by-character substitution. -/
def escapeHtml (s : List Char) : List Char := (s.map escChar).flatten

/-- `escapeHtml` applied to a possibly `null`/`undefined` argument:
`String(s || "")` turns those into the empty string. -/
def escapeHtmlJs : Option (List Char) → List Char
  | some t => escapeHtml t
  | none => escapeHtml []

def printPre : List Char :=
  ("\n      <html>\n        <head><title>Print QR</title></head>\n" ++
   "        <body style=\"font-family:Arial; text-align:center; padding:30px;\">\n" ++
   "          <h2 style=\"margin:0 0 8px;\">").data

def printMid1 : List Char :=
  ("</h2>\n          <div style=\"margin-bottom:10px; font-weight:bold;\">" ++
   "StudentID: ").data

def printMid2 : List Char :=
  ("</div>\n          <img src=\"").data

def printPost : List Char :=
  ("\" style=\"width:260px; height:260px;\" />\n" ++
   "          <div style=\"margin-top:14px; color:#555;\">Student360</div>\n" ++
   "          <script>window.onload = () => window.print();</script>\n" ++
   "        </body>\n      </html>\n    ").data

/-- The popup document written by `printQR` for a student with the given
name, id and QR data-url: `escapeHtml(qrFor.name || "")` and
`escapeHtml(qrFor.studentId)` are interpolated into the fixed template. -/
def printQRHtml (name sid dataUrl : List Char) : List Char :=
  printPre ++ escapeHtml (jsOr name []) ++ printMid1 ++ escapeHtml sid ++
    printMid2 ++ dataUrl ++ printPost

lemma escChar_no_special (a c : Char) (hc : c ∈ escChar a) :
    c ≠ '<' ∧ c ≠ '>' ∧ c ≠ '"' ∧ c ≠ apostrophe := by
  by_cases h1 : a = '&'
  · subst h1
    exact (by decide :
      ∀ x ∈ escChar '&', x ≠ '<' ∧ x ≠ '>' ∧ x ≠ '"' ∧ x ≠ apostrophe) c hc
  by_cases h2 : a = '<'
  · subst h2
    exact (by decide :
      ∀ x ∈ escChar '<', x ≠ '<' ∧ x ≠ '>' ∧ x ≠ '"' ∧ x ≠ apostrophe) c hc
  by_cases h3 : a = '>'
  · subst h3
    exact (by decide :
      ∀ x ∈ escChar '>', x ≠ '<' ∧ x ≠ '>' ∧ x ≠ '"' ∧ x ≠ apostrophe) c hc
  by_cases h4 : a = '"'
  · subst h4
    exact (by decide :
      ∀ x ∈ escChar '"', x ≠ '<' ∧ x ≠ '>' ∧ x ≠ '"' ∧ x ≠ apostrophe) c hc
  by_cases h5 : a = apostrophe
  · subst h5
    exact (by decide :
      ∀ x ∈ escChar apostrophe, x ≠ '<' ∧ x ≠ '>' ∧ x ≠ '"' ∧ x ≠ apostrophe) c hc
  · have hesc : escChar a = [a] := by simp [escChar, h1, h2, h3, h4, h5]
    rw [hesc] at hc
    simp only [List.mem_singleton] at hc
    subst hc
    exact ⟨h2, h3, h4, h5⟩

lemma escapeHtml_no_special (s : List Char) :
    ∀ c ∈ escapeHtml s, c ≠ '<' ∧ c ≠ '>' ∧ c ≠ '"' ∧ c ≠ apostrophe := by
  intro c hc
  unfold escapeHtml at hc
  obtain ⟨l, hl, hcl⟩ := List.mem_flatten.mp hc
  obtain ⟨a, _, rfl⟩ := List.mem_map.mp hl
  exact escChar_no_special a c hcl

/-- C10: `escapeHtml` output contains none of `<`, `>`, `"`, `'` (every
occurrence of those and of `&` is replaced by its HTML entity), the function
is total on null/undefined (escaping the empty string), and the print view
embeds the escaped student name and escaped student ID in the fixed popup
template. -/
theorem C10_escape_html_print (s name sid url : List Char) :
    (∀ c ∈ escapeHtml s, c ≠ '<' ∧ c ≠ '>' ∧ c ≠ '"' ∧ c ≠ apostrophe) ∧
    escapeHtmlJs none = escapeHtml [] ∧
    escapeHtmlJs none = [] ∧
    escapeHtml ("<b>&\"".data ++ [apostrophe]) = "&lt;b&gt;&amp;&quot;&#39;".data ∧
    printQRHtml name sid url =
      printPre ++ escapeHtml (jsOr name []) ++ printMid1 ++ escapeHtml sid ++
        printMid2 ++ url ++ printPost :=
  ⟨escapeHtml_no_special s, rfl, rfl, by decide, rfl⟩

/-- Witness for C10: the no-special-characters guarantee evaluated at a
concrete character of a concrete escaping. -/
theorem C10_witness :
    '&' ≠ '<' ∧ '&' ≠ '>' ∧ '&' ≠ '"' ∧ '&' ≠ apostrophe :=
  (C10_escape_html_print ("<".data) [] [] []).1 '&' (by decide)

/-! ## Student directory: single create vs batch import (C3)

The Firestore students collection is modelled as an association list keyed by
the document id; `serverTimestamp` and the creator identity metadata are
opaque to every claim and not modelled. -/

structure StudentDoc where
  studentId : List Char
  name : List Char
  grade : List Char
  «section» : List Char
  viaCsv : Bool
deriving DecidableEq

abbrev Store := List (List Char × StudentDoc)

/-- Document lookup by id. -/
def storeGet : Store → List Char → Option StudentDoc
  | [], _ => none
  | p :: rest, k => if p.1 == k then some p.2 else storeGet rest k

/-- `setDoc` / `batch.set` with `merge: false`: replace or insert. -/
def storeSet (st : Store) (k : List Char) (d : StudentDoc) : Store :=
  match st with
  | [] => [(k, d)]
  | p :: rest => if p.1 == k then (k, d) :: rest else p :: storeSet rest k d

inductive CreateResult
  | notAdmin
  | invalidId
  | emptyName
  | conflict (sid : List Char)
  | created (sid : List Char)
deriving DecidableEq

def adminRole : List Char := "admin".data

/-- `createStudent` (App.jsx 577–621) as a pure transition on the students
collection: role gate, ID/name validation, `getDoc` existence check, and
only then the `setDoc` write. -/
def createStudent (store : Store) (role : List Char)
    (rawId fullName grade sec : List Char) : Store × CreateResult :=
  if role ≠ adminRole then (store, CreateResult.notAdmin)
  else if (normalizeStudentId rawId).isEmpty then (store, CreateResult.invalidId)
  else if (jsTrim fullName).isEmpty then (store, CreateResult.emptyName)
  else
    match storeGet store (normalizeStudentId rawId) with
    | some _ => (store, CreateResult.conflict (normalizeStudentId rawId))
    | none =>
        (storeSet store (normalizeStudentId rawId)
          ⟨normalizeStudentId rawId, jsTrim fullName, grade, sec, false⟩,
         CreateResult.created (normalizeStudentId rawId))

/-- The document written for one surviving CSV row (`createdBy.via = "csv"`). -/
def docOfCleanRow (s : CleanRow) : StudentDoc :=
  ⟨s.studentId, s.name, s.grade, s.«section», true⟩

inductive ImportResult
  | notAdmin
  | noValidRows
  | imported (n : Nat)
deriving DecidableEq

/-- `importCSV` (App.jsx 665–729): role gate, parse + clean, then one batch
writing `cleaned.slice(0, 200)` unconditionally (`merge: false`) with no
existence check. -/
def importCSV (store : Store) (role : List Char) (text : List Char) :
    Store × ImportResult :=
  if role ≠ adminRole then (store, ImportResult.notAdmin)
  else if (importCSVClean text).isEmpty then (store, ImportResult.noValidRows)
  else
    ((importCSVWrites text).foldl
        (fun st s => storeSet st s.studentId (docOfCleanRow s)) store,
      ImportResult.imported (min (importCSVClean text).length 200))

lemma storeGet_storeSet_same (st : Store) (k : List Char) (d : StudentDoc) :
    storeGet (storeSet st k d) k = some d := by
  induction st with
  | nil => simp [storeSet, storeGet]
  | cons p rest ih =>
      by_cases h : (p.1 == k) = true
      · simp [storeSet, h, storeGet]
      · rw [Bool.not_eq_true] at h
        simp [storeSet, h, storeGet, ih]

lemma storeGet_storeSet_ne (st : Store) (k k' : List Char) (d : StudentDoc)
    (h : k' ≠ k) : storeGet (storeSet st k d) k' = storeGet st k' := by
  have hkk : (k == k') = false := by
    simp only [beq_eq_false_iff_ne, ne_eq]
    exact fun he => h he.symm
  induction st with
  | nil => simp [storeSet, storeGet, hkk]
  | cons p rest ih =>
      by_cases hp : (p.1 == k) = true
      · have hp1 : p.1 = k := by simpa using hp
        have hp' : (p.1 == k') = false := by rw [hp1]; exact hkk
        simp [storeSet, hp, storeGet, hkk, hp', hp1]
      · rw [Bool.not_eq_true] at hp
        simp [storeSet, hp, storeGet, ih]

/-- Every id among the batch rows ends up mapped to a `via: csv` document
after the fold, regardless of what the store held before. -/
lemma foldl_storeSet_mem (L : List CleanRow) :
    ∀ (store : Store) (k : List Char),
      ((∃ d, storeGet store k = some d ∧ d.viaCsv = true) ∨
        ∃ s ∈ L, s.studentId = k) →
      ∃ d, storeGet
          (L.foldl (fun st s => storeSet st s.studentId (docOfCleanRow s)) store) k =
            some d ∧ d.viaCsv = true := by
  induction L with
  | nil =>
      intro store k h
      rcases h with h | ⟨s, hs, _⟩
      · simpa using h
      · exact absurd hs (List.not_mem_nil s)
  | cons x L' ih =>
      intro store k h
      simp only [List.foldl_cons]
      apply ih
      by_cases hk : x.studentId = k
      · left
        refine ⟨docOfCleanRow x, ?_, rfl⟩
        rw [← hk]
        exact storeGet_storeSet_same store x.studentId (docOfCleanRow x)
      · rcases h with ⟨d, hd, hv⟩ | ⟨s, hs, hsk⟩
        · left
          refine ⟨d, ?_, hv⟩
          rw [storeGet_storeSet_ne store x.studentId k (docOfCleanRow x)
            (fun he => hk he.symm)]
          exact hd
        · rcases List.mem_cons.mp hs with rfl | hs'
          · exact absurd hsk hk
          · right
            exact ⟨s, hs', hsk⟩

/-- C3: single creation is check-then-write — an existing document under the
normalized ID yields the conflict message and the untouched store — while the
batch import writes every surviving row unconditionally (merge disabled) with
no pre-existence check, and hence overwrites an existing record (shown on a
concrete one-entry store). -/
theorem C3_create_checks_import_overwrites :
    (∀ (store : Store) (rawId fullName grade sec : List Char) (d : StudentDoc),
      storeGet store (normalizeStudentId rawId) = some d →
      (normalizeStudentId rawId).isEmpty = false →
      (jsTrim fullName).isEmpty = false →
      createStudent store adminRole rawId fullName grade sec =
        (store, CreateResult.conflict (normalizeStudentId rawId))) ∧
    (∀ (store : Store) (text : List Char) (s : CleanRow),
      s ∈ importCSVWrites text →
      ∃ d, storeGet (importCSV store adminRole text).1 s.studentId = some d ∧
        d.viaCsv = true) ∧
    (storeGet [("10025".data, ⟨"10025".data, "Old".data, "G".data, "B".data, false⟩)]
        ("10025".data) =
      some ⟨"10025".data, "Old".data, "G".data, "B".data, false⟩ ∧
    storeGet (importCSV
        [("10025".data, ⟨"10025".data, "Old".data, "G".data, "B".data, false⟩)]
        adminRole
        ("studentId,name,grade,section\n10025,Ahmed,Grade1,A".data)).1
        ("10025".data) =
      some ⟨"10025".data, "Ahmed".data, "Grade1".data, "A".data, true⟩) := by
  refine ⟨?_, ?_, by decide, by decide⟩
  · intro store rawId fullName grade sec d hd h1 h2
    simp [createStudent, h1, h2, hd]
  · intro store text s hs
    have hne : (importCSVClean text).isEmpty = false := by
      rw [List.isEmpty_eq_false]
      intro hempty
      rw [importCSVWrites, hempty] at hs
      exact absurd hs (List.not_mem_nil s)
    simp only [importCSV, ne_eq, not_true_eq_false, if_false, hne,
      Bool.false_eq_true]
    exact foldl_storeSet_mem (importCSVWrites text) store s.studentId
      (Or.inr ⟨s, hs, rfl⟩)

/-- Witness for C3: conflict refusal on a concrete one-entry store, and the
unconditional batch write on a concrete import. -/
theorem C3_witness :
    createStudent [("77".data, ⟨"77".data, "Old".data, "G".data, "B".data, false⟩)]
        adminRole ("77".data) ("New Name".data) ("G1".data) ("A".data) =
      ([("77".data, ⟨"77".data, "Old".data, "G".data, "B".data, false⟩)],
        CreateResult.conflict ("77".data)) ∧
    ∃ d, storeGet (importCSV []
        adminRole ("studentId,name\n77,Ahmed".data)).1 ("77".data) = some d ∧
      d.viaCsv = true :=
  ⟨C3_create_checks_import_overwrites.1
      [("77".data, ⟨"77".data, "Old".data, "G".data, "B".data, false⟩)]
      ("77".data) ("New Name".data) ("G1".data) ("A".data)
      ⟨"77".data, "Old".data, "G".data, "B".data, false⟩
      (by decide) (by decide) (by decide),
    C3_create_checks_import_overwrites.2.1 [] ("studentId,name\n77,Ahmed".data)
      ⟨"77".data, "Ahmed".data, defaultGrade, defaultSection⟩ (by decide)⟩

/-! ## Scanner single-result guard (C4) — App.jsx 963–1023 -/

inductive ScanStatus
  | idle
  | starting
  | scanning
  | scanned
  | error
deriving DecidableEq

structure ScannerState where
  didScan : Bool
  status : ScanStatus
  pending : Option (List Char)
deriving DecidableEq

/-- Scanner state right after `startCameraAndScan` succeeds in a fresh
camera session: `didScanRef.current = false`, decoder armed, no settle
timeout pending. -/
def startState : ScannerState := ⟨false, ScanStatus.scanning, none⟩

/-- The zxing decode callback (App.jsx 1001–1015): `none` is a no-decode
tick; the first real decode latches `didScanRef`, stops the reader
(`stopScanner` clears any pending timeout) and schedules the settle timeout
holding the decoded text. -/
def onDecode (st : ScannerState) (result : Option (List Char)) : ScannerState :=
  match result with
  | none => st
  | some text =>
      if st.didScan then st
      else { st with
          didScan := true
          status := ScanStatus.scanned
          pending := some text }

/-- The settle timeout firing: emits the `onScan(text, sessionId)` call. -/
def firePending (st : ScannerState) (sessionId : Nat) :
    ScannerState × List (List Char × Nat) :=
  match st.pending with
  | some text => ({ st with pending := none }, [(text, sessionId)])
  | none => (st, [])

def runDecodes (st : ScannerState) : List (Option (List Char)) → ScannerState
  | [] => st
  | e :: es => runDecodes (onDecode st e) es

/-- The downstream `onScan` calls emitted by one camera session that sees
the given decode-callback sequence and then lets the settle timer fire. -/
def scanSessionCalls (decodes : List (Option (List Char))) (sessionId : Nat) :
    List (List Char × Nat) :=
  (firePending (runDecodes startState decodes) sessionId).2

lemma onDecode_locked (st : ScannerState) (hst : st.didScan = true)
    (e : Option (List Char)) : onDecode st e = st := by
  cases e with
  | none => rfl
  | some t => simp [onDecode, hst]

lemma runDecodes_locked (es : List (Option (List Char))) :
    ∀ st : ScannerState, st.didScan = true → runDecodes st es = st := by
  induction es with
  | nil => exact fun st _ => rfl
  | cons e es' ih =>
      intro st hst
      simp only [runDecodes, onDecode_locked st hst e]
      exact ih st hst

/-- C4: within one camera session, two decode callbacks (followed by any
further callbacks) produce exactly one `onScan` call, carrying the first
decoded text and the captured session token — hence exactly one downstream
student lookup. -/
theorem C4_single_result_guard (t1 t2 : List Char)
    (rest : List (Option (List Char))) (sid : Nat) :
    scanSessionCalls (some t1 :: some t2 :: rest) sid = [(t1, sid)] ∧
    (scanSessionCalls (some t1 :: some t2 :: rest) sid).length = 1 := by
  have h1 : onDecode startState (some t1) =
      ⟨true, ScanStatus.scanned, some t1⟩ := rfl
  have h2 : onDecode ⟨true, ScanStatus.scanned, some t1⟩ (some t2) =
      ⟨true, ScanStatus.scanned, some t1⟩ := rfl
  unfold scanSessionCalls
  simp only [runDecodes, h1, h2]
  rw [runDecodes_locked rest _ rfl]
  exact ⟨rfl, rfl⟩

/-! ## Stale-session discard (C5) — App.jsx 185–240 -/

inductive Page
  | dashboard
  | scanner
  | student
  | adminStudents
deriving DecidableEq

structure AppState where
  scanSession : Nat
  student : Option (List Char × StudentDoc)
  studentLoadError : List Char
  page : Page
deriving DecidableEq

/-- Outcome of the `getDoc(studentDocRef(sid))` call. -/
inductive FetchResult
  | found (d : StudentDoc)
  | missing
  | failure
deriving DecidableEq

def invalidQRMsg : List Char :=
  "QR غير صالح. لازم يحتوي StudentID فقط مثل: S-10025 أو 10025".data

def notFoundMsg (sid : List Char) : List Char :=
  ("لم يتم العثور على طالب بهذا الـ ID: ".data) ++ sid ++ (" داخل المدرسة.".data)

def fetchErrMsg : List Char :=
  "حصل خطأ أثناء جلب بيانات الطالب من Firebase.".data

/-- `openStudentById` (App.jsx 206–240): the token check comes first; the
returned Bool records whether the student document was fetched at all. -/
def openStudentById (st : AppState) (fetch : List Char → FetchResult)
    (raw : List Char) (token : Nat) : AppState × Bool :=
  if token ≠ st.scanSession then (st, false)
  else if (normalizeStudentId raw).isEmpty then
    ({ st with
        student := none
        studentLoadError := invalidQRMsg
        page := Page.student }, false)
  else
    match fetch (normalizeStudentId raw) with
    | FetchResult.found d =>
        ({ st with
            studentLoadError := []
            student := some (normalizeStudentId raw, d)
            page := Page.student }, true)
    | FetchResult.missing =>
        ({ st with
            student := none
            studentLoadError := notFoundMsg (normalizeStudentId raw)
            page := Page.student }, true)
    | FetchResult.failure =>
        ({ st with
            student := none
            studentLoadError := fetchErrMsg
            page := Page.student }, true)

/-- `goScanner` (App.jsx 192–197): navigation advances the session counter. -/
def goScanner (st : AppState) : AppState :=
  { st with
      scanSession := st.scanSession + 1
      student := none
      studentLoadError := []
      page := Page.scanner }

/-- C5: a decode result carrying a token that no longer equals the current
scan-session counter is discarded: `openStudentById` returns the state
unchanged and performs no fetch; and `goScanner` advances the counter, so a
token captured before the navigation never matches afterwards. -/
theorem C5_stale_session_discard (st : AppState)
    (fetch : List Char → FetchResult) (raw : List Char) (token : Nat)
    (h : token ≠ st.scanSession) :
    openStudentById st fetch raw token = (st, false) ∧
    (goScanner st).scanSession = st.scanSession + 1 ∧
    st.scanSession ≠ (goScanner st).scanSession := by
  refine ⟨?_, rfl, ?_⟩
  · simp [openStudentById, h]
  · simp only [goScanner]
    omega

/-- Witness for C5 at a concrete stale token. -/
theorem C5_witness :
    openStudentById ⟨5, none, [], Page.scanner⟩ (fun _ => FetchResult.missing)
        ("S-10025".data) 4 = (⟨5, none, [], Page.scanner⟩, false) ∧
    (goScanner ⟨5, none, [], Page.scanner⟩).scanSession = 5 + 1 ∧
    (⟨5, none, [], Page.scanner⟩ : AppState).scanSession ≠
      (goScanner ⟨5, none, [], Page.scanner⟩).scanSession :=
  C5_stale_session_discard ⟨5, none, [], Page.scanner⟩
    (fun _ => FetchResult.missing) ("S-10025".data) 4 (by decide)

/-! ## Session / role resolution (C6) — App.jsx 92–145 -/

structure RoleDoc where
  role : Option (List Char)
  email : Option (List Char)
deriving DecidableEq

/-- Outcome of the `getDoc(doc(db, "users", uid))` call. -/
inductive RoleFetch
  | missing
  | found (data : RoleDoc)
  | failure
deriving DecidableEq

structure Session where
  uid : List Char
  role : List Char
  name : List Char
  identifier : List Char
  schoolId : List Char
  schoolName : List Char
deriving DecidableEq

def SCHOOL_ID : List Char := "demo-school".data

def SCHOOL_NAME : List Char := "Demo School".data

def unknownRole : List Char := "unknown".data

def defaultUserName : List Char := "مستخدم".data

/-- `a || b` where `a` may be `undefined` (absent field) or a string. -/
def jsOrOpt (a : Option (List Char)) (b : List Char) : List Char :=
  match a with
  | some s => if s.isEmpty then b else s
  | none => b

/-- `ROLE_DEFAULT_NAMES` (App.jsx 1494–1499); an unknown key reads as
`undefined`. -/
def ROLE_DEFAULT_NAMES (role : List Char) : Option (List Char) :=
  if role = "admin".data then some ("أ/ مدير المدرسة".data)
  else if role = "teacher".data then some ("أ/ أحمد".data)
  else if role = "counselor".data then some ("أ/ توجيه طلابي".data)
  else if role = "parent".data then some ("ولي أمر".data)
  else none

/-- The role/session effect once an identity is available (App.jsx 102–144):
one total function over the three fetch outcomes — the `setSession` payload;
the `catch` path produces the same degraded session as a missing document,
so no outcome throws or leaves the session unresolved. -/
def resolveSession (uid : List Char) (authEmail : Option (List Char))
    (res : RoleFetch) : Session :=
  match res with
  | RoleFetch.missing =>
      ⟨uid, unknownRole, defaultUserName, jsOrOpt authEmail uid,
        SCHOOL_ID, SCHOOL_NAME⟩
  | RoleFetch.failure =>
      ⟨uid, unknownRole, defaultUserName, jsOrOpt authEmail uid,
        SCHOOL_ID, SCHOOL_NAME⟩
  | RoleFetch.found data =>
      ⟨uid, jsOrOpt data.role unknownRole,
        jsOrOpt (ROLE_DEFAULT_NAMES (jsOrOpt data.role unknownRole))
          defaultUserName,
        jsOrOpt data.email (jsOrOpt authEmail uid), SCHOOL_ID, SCHOOL_NAME⟩

/-- C6: when the role document is absent or its fetch fails, the resolver
produces (totally, never throwing) the degraded session: role `unknown`,
the default display name, and the identity's email — or uid when no email —
as identifier. -/
theorem C6_role_degrades_to_unknown (uid : List Char)
    (authEmail : Option (List Char)) (res : RoleFetch)
    (h : res = RoleFetch.missing ∨ res = RoleFetch.failure) :
    (resolveSession uid authEmail res).role = unknownRole ∧
    (resolveSession uid authEmail res).name = defaultUserName ∧
    (resolveSession uid authEmail res).identifier = jsOrOpt authEmail uid ∧
    resolveSession uid authEmail res =
      ⟨uid, unknownRole, defaultUserName, jsOrOpt authEmail uid,
        SCHOOL_ID, SCHOOL_NAME⟩ := by
  rcases h with rfl | rfl <;> exact ⟨rfl, rfl, rfl, rfl⟩

/-- Witness for C6 at a concrete identity with no role document. -/
theorem C6_witness :
    (resolveSession ("uid1".data) (some ("a@b.c".data)) RoleFetch.missing).role =
      unknownRole ∧
    (resolveSession ("uid1".data) (some ("a@b.c".data)) RoleFetch.missing).name =
      defaultUserName ∧
    (resolveSession ("uid1".data) (some ("a@b.c".data))
        RoleFetch.missing).identifier =
      jsOrOpt (some ("a@b.c".data)) ("uid1".data) ∧
    resolveSession ("uid1".data) (some ("a@b.c".data)) RoleFetch.missing =
      ⟨"uid1".data, unknownRole, defaultUserName,
        jsOrOpt (some ("a@b.c".data)) ("uid1".data), SCHOOL_ID, SCHOOL_NAME⟩ :=
  C6_role_degrades_to_unknown ("uid1".data) (some ("a@b.c".data))
    RoleFetch.missing (Or.inl rfl)

end Student360
